import Mathlib

/-!
Verification of the financial analysis engine in
`frontend/src/lib/analyze.ts` of the rent_analysis repository.

The engine is a pure function over JS numbers.  We embed it shallowly over
`ℚ`: every arithmetic operation of the source (addition, subtraction,
multiplication, division, `Math.pow` with whole-number exponents,
`Math.abs`, `Math.max`, comparisons) is exact on rationals.  Year counts
(`loanTerm`, `holdingYears`, loop indices) are consumed by the source only
as whole years (loop bounds and integer exponents), so they are embedded
as `ℕ`.  `Option` models the `T | null` / optional fields of the listing.
Division by zero is total (`= 0`) in `ℚ` where JS would produce
`Infinity`/`NaN`; every place this matters is noted at its use site.
-/

namespace RentAnalysis

/-- Listing fields consumed by the engine's math.  The source record also
carries display-only fields (address, beds/baths, photo url, ...) that
`analyze` never reads; they are omitted from the embedding. -/
structure Listing where
  price : ℚ
  rentZestimate : Option ℚ
  monthlyHoaFee : Option ℚ
  propertyTaxRate : Option ℚ

/-- `AnalysisParams` from analyze.ts.  Percentages are plain numbers
(`6.5` means 6.5%).  `loanTerm` and `holdingYears` are whole years. -/
structure AnalysisParams where
  interestRate : ℚ
  loanTerm : ℕ
  downPaymentPct : ℚ
  closingCostsPct : ℚ
  sellingCostsPct : ℚ
  holdingYears : ℕ
  appreciationRate : ℚ
  rentIncreaseRate : ℚ
  maintenancePct : ℚ
  vacancyRate : ℚ
  insuranceAnnual : ℚ
  mgmtFeePct : ℚ
  spGrowthRate : ℚ

/-- `EquityPoint` from analyze.ts. -/
structure EquityPoint where
  year : ℕ
  propertyValue : ℚ
  remainingMortgage : ℚ
  equity : ℚ
deriving DecidableEq

/-- `AnalysisResult` from analyze.ts. -/
structure AnalysisResult where
  initialInvestment : ℚ
  downPayment : ℚ
  buyClosing : ℚ
  loanAmount : ℚ
  monthlyEmi : ℚ
  monthlyCashFlow : ℚ
  annualCashFlow : ℚ
  totalMonthlyExpenses : ℚ
  effectiveMonthlyRent : ℚ
  capRate : ℚ
  cashOnCash : ℚ
  futurePropertyValue : ℚ
  remainingMortgage : ℚ
  sellClosing : ℚ
  netSaleProceeds : ℚ
  totalProfit : ℚ
  annualizedRoi : ℚ
  irr : ℚ
  equityGrowth : List EquityPoint
  annualCfs : List ℚ
  propWealthSeries : List ℚ
  spPortfolioSeries : List ℚ
  spDeployedSeries : List ℚ
  spDeployed : ℚ
  spProfit : ℚ
deriving DecidableEq

/-- `calcEmi` (analyze.ts lines 92–98): fixed-rate annuity payment. -/
def calcEmi (principal annualRate : ℚ) (years : ℕ) : ℚ :=
  if principal ≤ 0 then 0
  else if annualRate = 0 then principal / ((years : ℚ) * 12)
  else
    let i := annualRate / 100 / 12
    let n := years * 12
    principal * i * (1 + i) ^ n / ((1 + i) ^ n - 1)

/-- `calcRemaining` (analyze.ts lines 100–112): outstanding balance after
`yearsPaid` years of an amortizing loan, clamped non-negative. -/
def calcRemaining (principal annualRate : ℚ) (totalYears yearsPaid : ℕ) : ℚ :=
  if totalYears ≤ yearsPaid ∨ principal ≤ 0 then 0
  else if annualRate = 0 then principal * (1 - (yearsPaid : ℚ) / (totalYears : ℚ))
  else
    let i := annualRate / 100 / 12
    let N := totalYears * 12
    let n := yearsPaid * 12
    max 0 (principal * ((1 + i) ^ N - (1 + i) ^ n) / ((1 + i) ^ N - 1))

/-- `npvAt` (analyze.ts lines 122–128): net present value of the flow
sequence at a given periodic rate, `Σ flow[t] / (1+rate)^t`. -/
def npvAt (cashFlows : List ℚ) (rate : ℚ) : ℚ :=
  (cashFlows.enum.map (fun q => q.2 / (1 + rate) ^ q.1)).sum

/-- Bracket selection of `computeIrr` (analyze.ts lines 130–142): start
from `[-0.5, 5]`; if `npv` has the same sign at both ends, try upper
bounds 10, 50, 100 in order and keep the first that gives a sign change;
`none` when all fail (the source then returns 0). -/
def irrBracket (cashFlows : List ℚ) : Option (ℚ × ℚ) :=
  let lo : ℚ := -1/2
  let hi : ℚ := 5
  let nLo := npvAt cashFlows lo
  let nHi := npvAt cashFlows hi
  if nLo * nHi > 0 then
    match [(10 : ℚ), 50, 100].find? (fun tryHi => nLo * npvAt cashFlows tryHi ≤ 0) with
    | some h => some (lo, h)
    | none => none
  else some (lo, hi)

/-- One bisection step of `computeIrr` (analyze.ts lines 145–150) on the
state `(lo, hi, nLo, nHi)`. -/
def bisectStep (cashFlows : List ℚ) (s : ℚ × ℚ × ℚ × ℚ) : ℚ × ℚ × ℚ × ℚ :=
  match s with
  | (lo, hi, nLo, nHi) =>
    let mid := (lo + hi) / 2
    let nMid := npvAt cashFlows mid
    if nMid * nLo ≤ 0 then (lo, mid, nLo, nMid) else (mid, hi, nMid, nHi)

/-- Midpoint of the bracket after the 60 bisection iterations of
`computeIrr` (analyze.ts lines 145–152). -/
def irrMid (cashFlows : List ℚ) (lo hi : ℚ) : ℚ :=
  let s := (bisectStep cashFlows)^[60] (lo, hi, npvAt cashFlows lo, npvAt cashFlows hi)
  (s.1 + s.2.1) / 2

/-- `computeIrr` (analyze.ts lines 115–156).  The source's `!isFinite(r)`
test can never fire over `ℚ` (every rational is finite), so only the
range test `r < -1 || r > 10` remains. -/
def computeIrr (cashFlows : List ℚ) : ℚ :=
  if ¬ (cashFlows.any fun c => decide (c < 0)) ∨ ¬ (cashFlows.any fun c => decide (0 < c)) then 0
  else
    match irrBracket cashFlows with
    | none => 0
    | some (lo, hi) =>
      if irrMid cashFlows lo hi < -1 ∨ 10 < irrMid cashFlows lo hi then 0
      else irrMid cashFlows lo hi * 100

/-! The locals of `analyze` (analyze.ts lines 160–248), one definition per
local, each parameterized by exactly the data it reads.  `price`, `moRent`,
`taxRate`, `moHoa` are the listing-derived locals of lines 161–166. -/

/-- Local `moRent` (analyze.ts lines 162–164): the rent estimate when
present and positive, else `price * 0.008`.  (`rentZestimate && rentZestimate > 0`:
`null` and `0` are falsy, so both fall through to the fallback.) -/
def baseRent (l : Listing) : ℚ :=
  match l.rentZestimate with
  | some v => if 0 < v then v else l.price * 0.008
  | none => l.price * 0.008

/-- Local `down` (line 169). -/
def down (price : ℚ) (p : AnalysisParams) : ℚ := price * p.downPaymentPct / 100

/-- Local `buyCc` (line 170). -/
def buyCc (price : ℚ) (p : AnalysisParams) : ℚ := price * p.closingCostsPct / 100

/-- Local `initInv` (line 171). -/
def initInv (price : ℚ) (p : AnalysisParams) : ℚ := down price p + buyCc price p

/-- Local `loan` (line 172). -/
def loan (price : ℚ) (p : AnalysisParams) : ℚ := price - down price p

/-- Local `emi` (line 173). -/
def emi (price : ℚ) (p : AnalysisParams) : ℚ := calcEmi (loan price p) p.interestRate p.loanTerm

/-- Local `moTax` (line 176). -/
def moTax (price taxRate : ℚ) : ℚ := price * taxRate / 100 / 12

/-- Local `moIns` (line 177). -/
def moIns (p : AnalysisParams) : ℚ := p.insuranceAnnual / 12

/-- Local `moMaint` (line 178). -/
def moMaint (price : ℚ) (p : AnalysisParams) : ℚ := price * p.maintenancePct / 100 / 12

/-- Local `moMgmt` (line 179). -/
def moMgmt (moRent : ℚ) (p : AnalysisParams) : ℚ := moRent * p.mgmtFeePct / 100

/-- Local `effRent` (line 180). -/
def effRent (moRent : ℚ) (p : AnalysisParams) : ℚ := moRent * (1 - p.vacancyRate / 100)

/-- Local `moExp` (line 181). -/
def moExp (price moRent taxRate moHoa : ℚ) (p : AnalysisParams) : ℚ :=
  emi price p + moTax price taxRate + moHoa + moIns p + moMaint price p + moMgmt moRent p

/-- Local `moCf` (line 182). -/
def moCf (price moRent taxRate moHoa : ℚ) (p : AnalysisParams) : ℚ :=
  effRent moRent p - moExp price moRent taxRate moHoa p

/-- Local `yr1Opex` (line 184). -/
def yr1Opex (price moRent taxRate moHoa : ℚ) (p : AnalysisParams) : ℚ :=
  (moTax price taxRate + moHoa + moIns p + moMaint price p + moMgmt moRent p) * 12

/-- Local `yr1Noi` (line 185). -/
def yr1Noi (price moRent taxRate moHoa : ℚ) (p : AnalysisParams) : ℚ :=
  effRent moRent p * 12 - yr1Opex price moRent taxRate moHoa p

/-- Local `capRate` (line 186): `price ? (yr1Noi / price) * 100 : 0`
(`0` is the only falsy rational). -/
def capRate (price moRent taxRate moHoa : ℚ) (p : AnalysisParams) : ℚ :=
  if price = 0 then 0 else yr1Noi price moRent taxRate moHoa p / price * 100

/-- Local `coc` (line 187): `initInv ? ((moCf*12) / initInv) * 100 : 0`. -/
def coc (price moRent taxRate moHoa : ℚ) (p : AnalysisParams) : ℚ :=
  if initInv price p = 0 then 0 else moCf price moRent taxRate moHoa p * 12 / initInv price p * 100

/-- Local `yrCf` of the year loop (analyze.ts lines 194–202). -/
def yrCf (price moRent taxRate moHoa : ℚ) (p : AnalysisParams) (yr : ℕ) : ℚ :=
  let yrRentMo := moRent * (1 + p.rentIncreaseRate / 100) ^ yr
  let yrEffAnn := yrRentMo * (1 - p.vacancyRate / 100) * 12
  let yrVal := price * (1 + p.appreciationRate / 100) ^ yr
  let yrTaxAnn := yrVal * taxRate / 100
  let yrMgmtAnn := yrRentMo * p.mgmtFeePct / 100 * 12
  let yrMort := if yr ≤ p.loanTerm then emi price p * 12 else 0
  let yrExp := yrMort + yrTaxAnn + moHoa * 12 + p.insuranceAnnual
    + yrVal * p.maintenancePct / 100 + yrMgmtAnn
  yrEffAnn - yrExp

/-- Array `annualCfs` accumulated by the year loop (lines 191, 205). -/
def annualCfs (price moRent taxRate moHoa : ℚ) (p : AnalysisParams) : List ℚ :=
  (List.range p.holdingYears).map (fun k => yrCf price moRent taxRate moHoa p (k + 1))

/-- Entry pushed onto `equityList` for year `yr` (lines 207–208). -/
def equityPoint (price : ℚ) (p : AnalysisParams) (yr : ℕ) : EquityPoint :=
  let yrVal := price * (1 + p.appreciationRate / 100) ^ yr
  let yrBal := calcRemaining (loan price p) p.interestRate p.loanTerm yr
  ⟨yr, yrVal, yrBal, yrVal - yrBal⟩

/-- Array `equityList` accumulated by the year loop (lines 192, 208). -/
def equityList (price : ℚ) (p : AnalysisParams) : List EquityPoint :=
  (List.range p.holdingYears).map (fun k => equityPoint price p (k + 1))

/-- Local `futureVal` (line 212). -/
def futureVal (price : ℚ) (p : AnalysisParams) : ℚ :=
  price * (1 + p.appreciationRate / 100) ^ p.holdingYears

/-- Local `remMort` (line 213). -/
def remMort (price : ℚ) (p : AnalysisParams) : ℚ :=
  calcRemaining (loan price p) p.interestRate p.loanTerm p.holdingYears

/-- Local `sellCc` (line 214). -/
def sellCc (price : ℚ) (p : AnalysisParams) : ℚ := futureVal price p * p.sellingCostsPct / 100

/-- Local `netSale` (line 215). -/
def netSale (price : ℚ) (p : AnalysisParams) : ℚ :=
  futureVal price p - remMort price p - sellCc price p

/-- The in-place update `irrFlows[irrFlows.length - 1] += x` (line 217):
add `x` to the last entry of a list. -/
def addToLast : List ℚ → ℚ → List ℚ
  | [], _ => []
  | [a], x => [a + x]
  | a :: b :: rest, x => a :: addToLast (b :: rest) x

/-- Array `irrFlows` after the sale-proceeds update (lines 190, 204, 217):
`[-initInv, cf_1, ..., cf_n]` with `netSale` added to the last entry. -/
def irrFlows (price moRent taxRate moHoa : ℚ) (p : AnalysisParams) : List ℚ :=
  addToLast (-(initInv price p) :: annualCfs price moRent taxRate moHoa p) (netSale price p)

/-- Local `totalProfit` (line 218): `irrFlows.slice(1).reduce(+, 0) - initInv`. -/
def totalProfit (price moRent taxRate moHoa : ℚ) (p : AnalysisParams) : ℚ :=
  ((irrFlows price moRent taxRate moHoa p).drop 1).sum - initInv price p

/-- Local `annRoi` (line 220): `initInv && p.holdingYears ? ... : 0`. -/
def annRoi (price moRent taxRate moHoa : ℚ) (p : AnalysisParams) : ℚ :=
  if initInv price p = 0 ∨ p.holdingYears = 0 then 0
  else totalProfit price moRent taxRate moHoa p / initInv price p / (p.holdingYears : ℚ) * 100

/-- The per-year benchmark contribution (line 231):
`cf < 0 ? Math.abs(cf) : 0`. -/
def contribOf (cf : ℚ) : ℚ := if cf < 0 then |cf| else 0

/-- Array `spPortfolio` (lines 224, 228–235): starts at the initial
capital; each year the previous value compounds and the year's capital
call (if any) is added. -/
def spPortfolioFrom (g : ℚ) : ℚ → List ℚ → List ℚ
  | w, [] => [w]
  | w, cf :: rest => w :: spPortfolioFrom g (w * (1 + g) + contribOf cf) rest

/-- Array `spDeployedList` (lines 225–226, 232, 234): running cumulative
capital deployed into the benchmark. -/
def spDeployedFrom : ℚ → List ℚ → List ℚ
  | d, [] => [d]
  | d, cf :: rest => d :: spDeployedFrom (d + contribOf cf) rest

/-- Tail of `propWealth` built by the loop of lines 240–245, carrying the
running `cumulOp`; consumes `annualCfs` zipped with `equityList`. -/
def propWealthFrom (sellFrac : ℚ) : ℚ → List (ℚ × EquityPoint) → List ℚ
  | _, [] => []
  | cumulOp, (cf, ev) :: rest =>
    (ev.propertyValue - ev.remainingMortgage - sellFrac * ev.propertyValue + (cumulOp + cf))
      :: propWealthFrom sellFrac (cumulOp + cf) rest

/-- Body of `analyze` after the listing-derived locals (analyze.ts lines
168–275), parameterized by `price`, `moRent`, `taxRate`, `moHoa`. -/
def analyzeCore (price moRent taxRate moHoa : ℚ) (p : AnalysisParams) : AnalysisResult where
  initialInvestment := initInv price p
  downPayment := down price p
  buyClosing := buyCc price p
  loanAmount := loan price p
  monthlyEmi := emi price p
  monthlyCashFlow := moCf price moRent taxRate moHoa p
  annualCashFlow := moCf price moRent taxRate moHoa p * 12
  totalMonthlyExpenses := moExp price moRent taxRate moHoa p
  effectiveMonthlyRent := effRent moRent p
  capRate := capRate price moRent taxRate moHoa p
  cashOnCash := coc price moRent taxRate moHoa p
  futurePropertyValue := futureVal price p
  remainingMortgage := remMort price p
  sellClosing := sellCc price p
  netSaleProceeds := netSale price p
  totalProfit := totalProfit price moRent taxRate moHoa p
  annualizedRoi := annRoi price moRent taxRate moHoa p
  irr := computeIrr (irrFlows price moRent taxRate moHoa p)
  equityGrowth := equityList price p
  annualCfs := annualCfs price moRent taxRate moHoa p
  propWealthSeries :=
    (down price p - p.sellingCostsPct / 100 * price)
      :: propWealthFrom (p.sellingCostsPct / 100) 0
          ((annualCfs price moRent taxRate moHoa p).zip (equityList price p))
  spPortfolioSeries :=
    spPortfolioFrom (p.spGrowthRate / 100) (initInv price p)
      (annualCfs price moRent taxRate moHoa p)
  spDeployedSeries :=
    spDeployedFrom (initInv price p) (annualCfs price moRent taxRate moHoa p)
  spDeployed :=
    (spDeployedFrom (initInv price p) (annualCfs price moRent taxRate moHoa p)).getLastD 0
  spProfit :=
    (spPortfolioFrom (p.spGrowthRate / 100) (initInv price p)
        (annualCfs price moRent taxRate moHoa p)).getLastD 0
      - (spDeployedFrom (initInv price p) (annualCfs price moRent taxRate moHoa p)).getLastD 0

/-- `analyze` (analyze.ts lines 160–276): derive the listing locals
(lines 161–166) and run the body.  `propertyTaxRate ?? 2.15`,
`monthlyHoaFee ?? 0`. -/
def analyze (l : Listing) (p : AnalysisParams) : AnalysisResult :=
  analyzeCore l.price (baseRent l) (l.propertyTaxRate.getD 2.15) (l.monthlyHoaFee.getD 0) p

/-! Helper lemmas shared by the claim theorems. -/

lemma spPortfolioFrom_length (g : ℚ) :
    ∀ (cfs : List ℚ) (w : ℚ), (spPortfolioFrom g w cfs).length = cfs.length + 1 := by
  intro cfs
  induction cfs with
  | nil => intro w; simp [spPortfolioFrom]
  | cons c t ih => intro w; simp [spPortfolioFrom, ih]

lemma spDeployedFrom_length :
    ∀ (cfs : List ℚ) (d : ℚ), (spDeployedFrom d cfs).length = cfs.length + 1 := by
  intro cfs
  induction cfs with
  | nil => intro d; simp [spDeployedFrom]
  | cons c t ih => intro d; simp [spDeployedFrom, ih]

lemma propWealthFrom_length (s : ℚ) :
    ∀ (l : List (ℚ × EquityPoint)) (c : ℚ), (propWealthFrom s c l).length = l.length := by
  intro l
  induction l with
  | nil => intro c; simp [propWealthFrom]
  | cons q t ih => intro c; simp [propWealthFrom, ih]

lemma annualCfs_length (price moRent taxRate moHoa : ℚ) (p : AnalysisParams) :
    (annualCfs price moRent taxRate moHoa p).length = p.holdingYears := by
  simp [annualCfs]

lemma equityList_length (price : ℚ) (p : AnalysisParams) :
    (equityList price p).length = p.holdingYears := by
  simp [equityList]

/-- C8: for every (Listing, AnalysisParams) pair with `holdingYears = y`,
both `propWealthSeries` and `spPortfolioSeries` of the analysis result
have length `y + 1`. -/
theorem analyze_series_lengths (l : Listing) (p : AnalysisParams) :
    (analyze l p).propWealthSeries.length = p.holdingYears + 1 ∧
    (analyze l p).spPortfolioSeries.length = p.holdingYears + 1 := by
  constructor
  · simp only [analyze, analyzeCore, List.length_cons]
    rw [propWealthFrom_length]
    simp [List.length_zip, annualCfs_length, equityList_length]
  · simp only [analyze, analyzeCore]
    rw [spPortfolioFrom_length, annualCfs_length]

/-- C5: the monthly payment at a 0% annual rate on a positive principal
over a positive term is exactly straight-line `P / (Y*12)`, and a
non-positive principal yields payment 0 regardless of rate and term. -/
theorem calcEmi_spec (P r : ℚ) (Y : ℕ) :
    (0 < P → 0 < Y → calcEmi P 0 Y = P / ((Y : ℚ) * 12)) ∧
    (P ≤ 0 → calcEmi P r Y = 0) := by
  constructor
  · intro hP _
    unfold calcEmi
    rw [if_neg (not_le.mpr hP), if_pos rfl]
  · intro hP
    unfold calcEmi
    rw [if_pos hP]

/-- Witness for C5 at `P = 1200, Y = 30` (zero-rate case) and
`P = -5, r = 7, Y = 30` (non-positive principal case). -/
theorem calcEmi_spec_witness :
    calcEmi 1200 0 30 = 1200 / (((30 : ℕ) : ℚ) * 12) ∧ calcEmi (-5) 7 30 = 0 :=
  ⟨(calcEmi_spec 1200 0 30).1 (by norm_num) (by norm_num),
   (calcEmi_spec (-5) 7 30).2 (by norm_num)⟩

/-- C2: `computeIrr` returns exactly 0 on any cash-flow sequence with no
negative entry, or with no positive entry. -/
theorem computeIrr_no_sign_change (f : List ℚ)
    (h : (∀ c ∈ f, ¬ c < 0) ∨ (∀ c ∈ f, ¬ 0 < c)) : computeIrr f = 0 := by
  unfold computeIrr
  rw [if_pos]
  rcases h with h | h
  · left
    simp only [List.any_eq_true, decide_eq_true_eq, not_exists, not_and]
    intro c hc
    exact h c hc
  · right
    simp only [List.any_eq_true, decide_eq_true_eq, not_exists, not_and]
    intro c hc
    exact h c hc

/-- Witness for C2 on the all-non-negative sequence `[1, 2]`. -/
theorem computeIrr_no_sign_change_witness :
    (∀ c ∈ [(1 : ℚ), 2], ¬ c < 0) ∧ computeIrr [1, 2] = 0 :=
  ⟨by decide, computeIrr_no_sign_change [1, 2] (Or.inl (by decide))⟩

/-- C3: `computeIrr` always returns either 0 or `m * 100` where `m` is
the midpoint of the final bisection bracket and `m` lies inside
`[-1, 10]`; consequently the returned percentage always lies in
`[-100, 1000]`, with 0 covering every fallback (no sign change, no
bracket after widening, midpoint out of range). -/
theorem computeIrr_result_shape (f : List ℚ) :
    (-100 ≤ computeIrr f ∧ computeIrr f ≤ 1000) ∧
    (computeIrr f = 0 ∨
      ∃ lo hi, irrBracket f = some (lo, hi) ∧
        -1 ≤ irrMid f lo hi ∧ irrMid f lo hi ≤ 10 ∧
        computeIrr f = irrMid f lo hi * 100) := by
  have hval : computeIrr f = 0 ∨
      ∃ lo hi, irrBracket f = some (lo, hi) ∧
        -1 ≤ irrMid f lo hi ∧ irrMid f lo hi ≤ 10 ∧
        computeIrr f = irrMid f lo hi * 100 := by
    by_cases hg : (¬ (f.any fun c => decide (c < 0)) ∨ ¬ (f.any fun c => decide (0 < c)))
    · left
      unfold computeIrr
      rw [if_pos hg]
    · rcases hb : irrBracket f with _ | ⟨lo, hi⟩
      · left
        unfold computeIrr
        rw [if_neg hg, hb]
      · by_cases hr : irrMid f lo hi < -1 ∨ 10 < irrMid f lo hi
        · left
          unfold computeIrr
          rw [if_neg hg, hb]
          exact if_pos hr
        · right
          push_neg at hr
          refine ⟨lo, hi, rfl, hr.1, hr.2, ?_⟩
          unfold computeIrr
          rw [if_neg hg, hb]
          exact if_neg (by push_neg; exact hr)
  refine ⟨?_, hval⟩
  rcases hval with h0 | ⟨lo, hi, _, hm1, hm2, heq⟩
  · rw [h0]
    norm_num
  · rw [heq]
    constructor <;> nlinarith

lemma contribOf_nonneg (cf : ℚ) : 0 ≤ contribOf cf := by
  unfold contribOf
  split
  · exact abs_nonneg cf
  · exact le_refl 0

lemma spDeployedFrom_headI (d : ℚ) (cfs : List ℚ) : (spDeployedFrom d cfs).headI = d := by
  cases cfs <;> rfl

lemma spDeployedFrom_getD_zero (d : ℚ) (cfs : List ℚ) : (spDeployedFrom d cfs).getD 0 0 = d := by
  cases cfs <;> rfl

lemma spDeployedFrom_step :
    ∀ (cfs : List ℚ) (d : ℚ) (k : ℕ), k + 1 < (spDeployedFrom d cfs).length →
      (spDeployedFrom d cfs).getD (k + 1) 0
        = (spDeployedFrom d cfs).getD k 0 + contribOf (cfs.getD k 0) := by
  intro cfs
  induction cfs with
  | nil =>
    intro d k h
    simp [spDeployedFrom] at h
  | cons c t ih =>
    intro d k h
    cases k with
    | zero =>
      show (spDeployedFrom (d + contribOf c) t).getD 0 0 = d + contribOf c
      exact spDeployedFrom_getD_zero _ _
    | succ k =>
      have h' : k + 1 < (spDeployedFrom (d + contribOf c) t).length := by
        simpa [spDeployedFrom] using h
      simpa [spDeployedFrom, List.getD_cons_succ] using ih (d + contribOf c) k h'

/-- C9: the benchmark deployed-capital series starts at
`initialInvestment`, and each following entry is the previous one plus the
absolute value of that year's subject-property cash flow when that cash
flow is negative (plus 0 otherwise); in particular the series is
non-decreasing. -/
theorem analyze_spDeployed_spec (l : Listing) (p : AnalysisParams) :
    (analyze l p).spDeployedSeries.headI = (analyze l p).initialInvestment ∧
    ∀ k : ℕ, k + 1 < (analyze l p).spDeployedSeries.length →
      (analyze l p).spDeployedSeries.getD (k + 1) 0
          = (analyze l p).spDeployedSeries.getD k 0
            + (if (analyze l p).annualCfs.getD k 0 < 0
               then |(analyze l p).annualCfs.getD k 0| else 0) ∧
      (analyze l p).spDeployedSeries.getD k 0 ≤ (analyze l p).spDeployedSeries.getD (k + 1) 0 := by
  simp only [analyze, analyzeCore]
  refine ⟨spDeployedFrom_headI _ _, fun k hk => ?_⟩
  have hstep := spDeployedFrom_step _ _ k hk
  refine ⟨hstep, ?_⟩
  rw [hstep]
  exact le_add_of_nonneg_right (contribOf_nonneg _)

lemma addToLast_cons_of_ne_nil (a x : ℚ) (l : List ℚ) (h : l ≠ []) :
    addToLast (a :: l) x = a :: addToLast l x := by
  cases l with
  | nil => exact absurd rfl h
  | cons b t => rfl

lemma sum_addToLast : ∀ (l : List ℚ) (x : ℚ), l ≠ [] → (addToLast l x).sum = l.sum + x := by
  intro l
  induction l with
  | nil => intro x h; exact absurd rfl h
  | cons a t ih =>
    intro x _
    cases t with
    | nil =>
      show (addToLast [a] x).sum = [a].sum + x
      simp [addToLast]
    | cons b t2 =>
      rw [addToLast_cons_of_ne_nil a x (b :: t2) (by simp)]
      rw [List.sum_cons, List.sum_cons, ih x (by simp)]
      ring

lemma totalProfit_eq (price moRent taxRate moHoa : ℚ) (p : AnalysisParams)
    (h : p.holdingYears ≠ 0) :
    totalProfit price moRent taxRate moHoa p
      = (annualCfs price moRent taxRate moHoa p).sum + netSale price p - initInv price p := by
  have hne : annualCfs price moRent taxRate moHoa p ≠ [] := by
    intro hemp
    have := congrArg List.length hemp
    rw [annualCfs_length] at this
    simp at this
    exact h this
  unfold totalProfit irrFlows
  rw [addToLast_cons_of_ne_nil _ _ _ hne]
  rw [List.drop_one, List.tail_cons, sum_addToLast _ _ hne]

/-- C1 (amended): for every (Listing, AnalysisParams) pair with
`holdingYears ≥ 1`, the result satisfies
`totalProfit = Σ annualCfs + netSaleProceeds − initialInvestment`
(exactly, over ℚ).  At `holdingYears = 0` the identity fails, because the
sale proceeds are folded into the single entry `irrFlows[0]`, which the
`totalProfit` sum over `irrFlows.slice(1)` then discards. -/
theorem analyze_totalProfit_identity (l : Listing) (p : AnalysisParams)
    (h : 1 ≤ p.holdingYears) :
    (analyze l p).totalProfit
      = (analyze l p).annualCfs.sum + (analyze l p).netSaleProceeds
        - (analyze l p).initialInvestment := by
  simp only [analyze, analyzeCore]
  exact totalProfit_eq _ _ _ _ p (by omega)

/-- C6: a listing whose rent estimate is absent, zero, or negative is
analyzed with baseline monthly rent `price * 0.008` everywhere the rent
enters: `analyze` coincides with the engine body run on that fallback
rent (and it never fails — the embedding is total). -/
theorem analyze_missing_rent_fallback (l : Listing) (p : AnalysisParams)
    (h : l.rentZestimate = none ∨ ∃ v, l.rentZestimate = some v ∧ v ≤ 0) :
    analyze l p = analyzeCore l.price (l.price * 0.008)
      (l.propertyTaxRate.getD 2.15) (l.monthlyHoaFee.getD 0) p := by
  have hb : baseRent l = l.price * 0.008 := by
    rcases h with h | ⟨v, hv, hv0⟩
    · rw [baseRent, h]
    · rw [baseRent, hv]
      exact if_neg (not_lt.mpr hv0)
  rw [analyze, hb]

/-- C7: the ratio guards of `analyze`: a zero price forces `capRate = 0`,
and a zero initial investment forces `cashOnCash = 0` and
`annualizedRoi = 0`; no division by zero is performed (the embedding is a
total function). -/
theorem analyze_division_guards (l : Listing) (p : AnalysisParams) :
    (l.price = 0 → (analyze l p).capRate = 0) ∧
    ((analyze l p).initialInvestment = 0 →
      (analyze l p).cashOnCash = 0 ∧ (analyze l p).annualizedRoi = 0) := by
  constructor
  · intro hp
    simp only [analyze, analyzeCore]
    unfold capRate
    rw [hp, if_pos rfl]
  · intro hi
    simp only [analyze, analyzeCore] at hi ⊢
    constructor
    · unfold coc
      rw [if_pos hi]
    · unfold annRoi
      rw [if_pos (Or.inl hi)]

/-- C10: when `propertyTaxRate` is absent from the listing, `analyze`
runs on the default annual tax rate 2.15 (% of value), so e.g. the year-1
monthly tax is `price * 2.15 / 100 / 12`; the spec leaves the default's
value unstated. -/
theorem analyze_default_propertyTaxRate (l : Listing) (p : AnalysisParams)
    (h : l.propertyTaxRate = none) :
    analyze l p = analyzeCore l.price (baseRent l) 2.15 (l.monthlyHoaFee.getD 0) p ∧
    moTax l.price (l.propertyTaxRate.getD 2.15) = l.price * 2.15 / 100 / 12 := by
  constructor
  · rw [analyze, h, Option.getD_none]
  · rw [h]
    rfl

lemma calcRemaining_of_le (P r : ℚ) {T y : ℕ} (h : T ≤ y) : calcRemaining P r T y = 0 := by
  unfold calcRemaining
  rw [if_pos (Or.inl h)]

lemma calcRemaining_zero_rate {P : ℚ} {T y : ℕ} (hy : y < T) (hP : 0 < P) :
    calcRemaining P 0 T y = P * (1 - (y : ℚ) / (T : ℚ)) := by
  unfold calcRemaining
  rw [if_neg (by push_neg; exact ⟨hy, hP⟩), if_pos rfl]

lemma calcRemaining_nonneg (P r : ℚ) (T y : ℕ) (hP : 0 ≤ P) : 0 ≤ calcRemaining P r T y := by
  unfold calcRemaining
  split_ifs with h1 h2
  · exact le_refl 0
  · push_neg at h1
    obtain ⟨hTy, _⟩ := h1
    have hT : (0 : ℚ) < (T : ℚ) := by
      exact_mod_cast lt_of_le_of_lt (Nat.zero_le y) hTy
    have hyT : (y : ℚ) ≤ (T : ℚ) := by exact_mod_cast le_of_lt hTy
    have hfrac : (y : ℚ) / (T : ℚ) ≤ 1 := div_le_one_of_le₀ hyT (le_of_lt hT)
    nlinarith
  · exact le_max_left 0 _

lemma calcRemaining_formula (P r : ℚ) {T y : ℕ} (hy : y < T) (hP : 0 < P) (hr : r ≠ 0) :
    calcRemaining P r T y
      = max 0 (P * ((1 + r / 100 / 12) ^ (T * 12) - (1 + r / 100 / 12) ^ (y * 12))
          / ((1 + r / 100 / 12) ^ (T * 12) - 1)) := by
  unfold calcRemaining
  rw [if_neg (by push_neg; exact ⟨hy, hP⟩), if_neg hr]

lemma one_lt_monthlyBase {r : ℚ} (hr : 0 < r) : 1 < 1 + r / 100 / 12 := by
  have : 0 < r / 100 / 12 := by positivity
  linarith

lemma calcRemaining_formula_pos (P r : ℚ) {T y : ℕ} (hy : y < T) (hP : 0 < P) (hr : 0 < r) :
    calcRemaining P r T y
      = P * ((1 + r / 100 / 12) ^ (T * 12) - (1 + r / 100 / 12) ^ (y * 12))
          / ((1 + r / 100 / 12) ^ (T * 12) - 1) := by
  rw [calcRemaining_formula P r hy hP (ne_of_gt hr)]
  have hB : 1 < 1 + r / 100 / 12 := one_lt_monthlyBase hr
  have hBN : 1 < (1 + r / 100 / 12) ^ (T * 12) := one_lt_pow₀ hB (by omega)
  have hpow : (1 + r / 100 / 12) ^ (y * 12) ≤ (1 + r / 100 / 12) ^ (T * 12) :=
    pow_le_pow_right₀ (le_of_lt hB) (by omega)
  exact max_eq_right (div_nonneg (mul_nonneg (le_of_lt hP) (by linarith)) (by linarith))

lemma calcRemaining_le_pos {P r : ℚ} {T y₁ y₂ : ℕ} (h12 : y₁ ≤ y₂) (hy2 : y₂ < T)
    (hP : 0 < P) (hr : 0 < r) : calcRemaining P r T y₂ ≤ calcRemaining P r T y₁ := by
  have hy1 : y₁ < T := lt_of_le_of_lt h12 hy2
  rw [calcRemaining_formula_pos P r hy2 hP hr, calcRemaining_formula_pos P r hy1 hP hr]
  have hB : 1 < 1 + r / 100 / 12 := one_lt_monthlyBase hr
  have hBN : 1 < (1 + r / 100 / 12) ^ (T * 12) := one_lt_pow₀ hB (by omega)
  have hpow : (1 + r / 100 / 12) ^ (y₁ * 12) ≤ (1 + r / 100 / 12) ^ (y₂ * 12) :=
    pow_le_pow_right₀ (le_of_lt hB) (by omega)
  have hD : (0 : ℚ) < (1 + r / 100 / 12) ^ (T * 12) - 1 := by linarith
  have hnum : P * ((1 + r / 100 / 12) ^ (T * 12) - (1 + r / 100 / 12) ^ (y₂ * 12))
      ≤ P * ((1 + r / 100 / 12) ^ (T * 12) - (1 + r / 100 / 12) ^ (y₁ * 12)) := by
    nlinarith
  exact (div_le_div_iff_of_pos_right hD).mpr hnum

lemma calcRemaining_antitone (P r : ℚ) (T : ℕ) (hP : 0 < P) (hr : 0 ≤ r)
    {y₁ y₂ : ℕ} (h : y₁ ≤ y₂) : calcRemaining P r T y₂ ≤ calcRemaining P r T y₁ := by
  by_cases h2 : T ≤ y₂
  · rw [calcRemaining_of_le P r h2]
    exact calcRemaining_nonneg P r T y₁ (le_of_lt hP)
  · have hy2 : y₂ < T := not_le.mp h2
    rcases eq_or_lt_of_le hr with hr0 | hrpos
    · have hy1 : y₁ < T := lt_of_le_of_lt h hy2
      rw [← hr0, calcRemaining_zero_rate hy2 hP, calcRemaining_zero_rate hy1 hP]
      have hT : (0 : ℚ) < (T : ℚ) := by
        exact_mod_cast lt_of_le_of_lt (Nat.zero_le y₂) hy2
      have hfrac : (y₁ : ℚ) / (T : ℚ) ≤ (y₂ : ℚ) / (T : ℚ) := by
        have hc : (y₁ : ℚ) ≤ (y₂ : ℚ) := by exact_mod_cast h
        exact (div_le_div_iff_of_pos_right hT).mpr hc
      nlinarith
    · exact calcRemaining_le_pos h hy2 hP hrpos

lemma calcRemaining_elapsed_zero (P r : ℚ) (T : ℕ) (hP : 0 < P) (hT : 0 < T) (hr : 0 ≤ r) :
    calcRemaining P r T 0 = P := by
  rcases eq_or_lt_of_le hr with hr0 | hrpos
  · rw [← hr0, calcRemaining_zero_rate hT hP]
    simp
  · rw [calcRemaining_formula_pos P r hT hP hrpos]
    have hB : 1 < 1 + r / 100 / 12 := one_lt_monthlyBase hrpos
    have hBN : 1 < (1 + r / 100 / 12) ^ (T * 12) := one_lt_pow₀ hB (by omega)
    rw [Nat.zero_mul, pow_zero, mul_div_assoc,
      div_self (ne_of_gt (by linarith : (0 : ℚ) < (1 + r / 100 / 12) ^ (T * 12) - 1)),
      mul_one]

/-- C4 (amended): for every positive principal `P`, non-negative annual
rate `r` and positive whole-year term `T`, the remaining balance is `P`
at 0 years elapsed, `0` at `T` years elapsed, non-increasing in the years
elapsed, `0` for any `y ≥ T`, and equal to the straight line
`P * (1 − y/T)` at rate 0 for `0 ≤ y ≤ T`.  Without the positivity
restrictions the claim is false (see the counterexample). -/
theorem calcRemaining_spec (P r : ℚ) (T : ℕ) (hP : 0 < P) (hT : 0 < T) (hr : 0 ≤ r) :
    calcRemaining P r T 0 = P ∧
    calcRemaining P r T T = 0 ∧
    (∀ y₁ y₂ : ℕ, y₁ ≤ y₂ → calcRemaining P r T y₂ ≤ calcRemaining P r T y₁) ∧
    (∀ y : ℕ, T ≤ y → calcRemaining P r T y = 0) ∧
    (r = 0 → ∀ y : ℕ, y ≤ T → calcRemaining P 0 T y = P * (1 - (y : ℚ) / (T : ℚ))) := by
  refine ⟨calcRemaining_elapsed_zero P r T hP hT hr,
    calcRemaining_of_le P r (le_refl T),
    fun y₁ y₂ h12 => calcRemaining_antitone P r T hP hr h12,
    fun y hy => calcRemaining_of_le P r hy,
    fun _ y hy => ?_⟩
  rcases eq_or_lt_of_le hy with heq | hlt
  · rw [heq, calcRemaining_of_le P 0 (le_refl T)]
    have hTQ : (T : ℚ) ≠ 0 := by
      have : T ≠ 0 := by omega
      exact_mod_cast this
    rw [div_self hTQ]
    ring
  · exact calcRemaining_zero_rate hlt hP

/-- Witness for C4 at `P = 100000, r = 6, T = 30`. -/
theorem calcRemaining_spec_witness :
    (0 : ℚ) < 100000 ∧ 0 < 30 ∧ (0 : ℚ) ≤ 6 ∧ calcRemaining 100000 6 30 30 = 0 :=
  ⟨by norm_num, by norm_num, by norm_num,
    (calcRemaining_spec 100000 6 30 (by norm_num) (by norm_num) (by norm_num)).2.1⟩

/-- Counterexample for C4 as universally stated: a non-positive principal
is mapped to balance 0, not P (first conjunct); an annual rate of −2400%
(monthly factor −1) degenerates the closed formula and the balance at 0
years is not P (second conjunct); past the term the zero-rate balance is
0, not the (negative) straight-line value (third conjunct). -/
theorem calcRemaining_unrestricted_fails :
    calcRemaining (-1) 0 30 0 ≠ -1 ∧
    calcRemaining 1 (-2400) 30 0 ≠ 1 ∧
    calcRemaining 1 0 30 60 ≠ 1 * (1 - (60 : ℚ) / 30) := by
  refine ⟨by norm_num [calcRemaining], ?_, by norm_num [calcRemaining]⟩
  norm_num [calcRemaining]

/-! Concrete inputs used by counterexamples and witnesses. -/

/-- A listing carrying only a price: every optional field absent. -/
def sampleListing : Listing := ⟨100000, none, none, none⟩

/-- A zero-priced listing. -/
def zeroPriceListing : Listing := ⟨0, none, none, none⟩

/-- Parameters with a zero-year holding period. -/
def zeroHoldParams : AnalysisParams := ⟨0, 30, 20, 3, 6, 0, 0, 0, 0, 0, 0, 0, 0⟩

/-- Parameters with a one-year holding period. -/
def oneYearParams : AnalysisParams := ⟨0, 30, 20, 3, 6, 1, 0, 0, 0, 0, 0, 0, 0⟩

/-- Parameters with a two-year holding period. -/
def twoYearParams : AnalysisParams := ⟨0, 30, 20, 3, 6, 2, 0, 0, 0, 0, 0, 0, 0⟩

/-- Counterexample for C1 at `holdingYears = 0`: the engine returns
`totalProfit = −initialInvestment = −23000`, while
`Σ annualCfs + netSaleProceeds − initialInvestment = 0 + 14000 − 23000 = −9000`. -/
theorem totalProfit_identity_fails_at_zero_holding :
    (analyze sampleListing zeroHoldParams).totalProfit
      ≠ (analyze sampleListing zeroHoldParams).annualCfs.sum
        + (analyze sampleListing zeroHoldParams).netSaleProceeds
        - (analyze sampleListing zeroHoldParams).initialInvestment := by
  norm_num [sampleListing, zeroHoldParams, analyze, analyzeCore, totalProfit, irrFlows,
    annualCfs, addToLast, netSale, futureVal, remMort, sellCc, calcRemaining, initInv,
    down, buyCc, loan, baseRent, List.range_zero]

/-- Witness for C1 (amended) at a one-year holding period. -/
theorem analyze_totalProfit_identity_witness :
    1 ≤ oneYearParams.holdingYears ∧
    (analyze sampleListing oneYearParams).totalProfit
      = (analyze sampleListing oneYearParams).annualCfs.sum
        + (analyze sampleListing oneYearParams).netSaleProceeds
        - (analyze sampleListing oneYearParams).initialInvestment :=
  ⟨by decide, analyze_totalProfit_identity sampleListing oneYearParams (by decide)⟩

/-- Witness for C6 on a listing with no rent estimate. -/
theorem analyze_missing_rent_fallback_witness :
    sampleListing.rentZestimate = none ∧
    analyze sampleListing oneYearParams
      = analyzeCore sampleListing.price (sampleListing.price * 0.008)
          (sampleListing.propertyTaxRate.getD 2.15) (sampleListing.monthlyHoaFee.getD 0)
          oneYearParams :=
  ⟨rfl, analyze_missing_rent_fallback sampleListing oneYearParams (Or.inl rfl)⟩

/-- Witness for C7 on a zero-priced listing (its initial investment is 0
as well, so all three guarded ratios are exercised). -/
theorem analyze_division_guards_witness :
    (analyze zeroPriceListing oneYearParams).capRate = 0 ∧
    (analyze zeroPriceListing oneYearParams).cashOnCash = 0 ∧
    (analyze zeroPriceListing oneYearParams).annualizedRoi = 0 := by
  have hinv : (analyze zeroPriceListing oneYearParams).initialInvestment = 0 := by
    simp only [analyze, analyzeCore]
    norm_num [initInv, down, buyCc, zeroPriceListing]
  exact ⟨(analyze_division_guards zeroPriceListing oneYearParams).1 rfl,
    ((analyze_division_guards zeroPriceListing oneYearParams).2 hinv).1,
    ((analyze_division_guards zeroPriceListing oneYearParams).2 hinv).2⟩

/-- Witness for C9 over a two-year holding period. -/
theorem analyze_spDeployed_spec_witness :
    (analyze sampleListing twoYearParams).spDeployedSeries.headI
      = (analyze sampleListing twoYearParams).initialInvestment ∧
    (analyze sampleListing twoYearParams).spDeployedSeries.getD 0 0
      ≤ (analyze sampleListing twoYearParams).spDeployedSeries.getD (0 + 1) 0 :=
  ⟨(analyze_spDeployed_spec sampleListing twoYearParams).1,
   ((analyze_spDeployed_spec sampleListing twoYearParams).2 0 (by decide)).2⟩

/-- Witness for C10 on a listing with no `propertyTaxRate`. -/
theorem analyze_default_propertyTaxRate_witness :
    sampleListing.propertyTaxRate = none ∧
    analyze sampleListing oneYearParams
      = analyzeCore sampleListing.price (baseRent sampleListing) 2.15
          (sampleListing.monthlyHoaFee.getD 0) oneYearParams :=
  ⟨rfl, (analyze_default_propertyTaxRate sampleListing oneYearParams rfl).1⟩

end RentAnalysis
